import Mathlib

/-!
Verification of `script/research/lotterysim/constants.py`.

The source module defines numeric constants twice over: once as Python
floats (IEEE-754 binary64) and once as Python `decimal.Decimal` values
built with the default context (28 significant digits, ROUND_HALF_EVEN).

We embed both number systems over exact rationals:

* a finite binary64 value is an exact rational; parsing a float literal
  and multiplying two floats round the exact rational result to 53
  significant bits, nearest, ties to even (`roundDouble`);
* a `Decimal` is an exact rational; `Decimal(float)` is exact, and
  `Decimal` multiplication rounds the exact product to 28 significant
  decimal digits, nearest, ties to even (`decRound`), matching the
  default `getcontext()` of CPython;
* `float(Decimal)` is the correctly rounded double, again `roundDouble`.

Both rounding modes are instances of one function `roundSig b p`:
round to `p` significant base-`b` digits, nearest, ties to even.

All arithmetic inside the model is phrased with `mkRat` and integer
operations on numerators and denominators, so that concrete instances
evaluate by kernel reduction; the lemmas `qmul_eq`, `qpow_eq`,
`qabs_eq` and `qleB_iff` prove these primitive operations agree with
the field operations of Mathlib on `ℚ`.
-/

set_option maxRecDepth 100000

namespace LotterySim

/-- Exact product of two rationals, written on numerators and
denominators: `qmul a b = a * b` (lemma `qmul_eq`). -/
def qmul (a b : ℚ) : ℚ := mkRat (a.num * b.num) (a.den * b.den)

/-- The exact rational `b ^ e` for an integer exponent
`e` (lemma `qpow_eq`). -/
def qpow (b : ℕ) : ℤ → ℚ
  | Int.ofNat k => mkRat ((b : ℤ) ^ k) 1
  | Int.negSucc k => mkRat 1 (b ^ (k + 1))

/-- Absolute value on numerator and denominator (lemma `qabs_eq`). -/
def qabs (a : ℚ) : ℚ := mkRat (a.num.natAbs : ℤ) a.den

/-- Comparison `a ≤ b` by cross multiplication, the denominators being positive
(lemma `qleB_iff`). -/
def qleB (a b : ℚ) : Bool := a.num * (b.den : ℤ) ≤ b.num * (a.den : ℤ)

/-- Fuel-driven floor logarithm: `natLogF b f n` is `⌊log_b n⌋` whenever
`2 ≤ b`, `1 ≤ n` and `n < b ^ f`.  The fuel makes the recursion
structural, so concrete instances reduce inside the kernel. -/
def natLogF (b : ℕ) : ℕ → ℕ → ℕ
  | 0, _ => 0
  | f + 1, n => if 2 ≤ b ∧ b ≤ n then natLogF b f (n / b) + 1 else 0

/-- Floor logarithm with fuel 1200: exact for every `n < b ^ 1200`,
far beyond the binary64 range (exponents lie within ±1075). -/
def natLogB (b n : ℕ) : ℕ := natLogF b 1200 n

/-- Floor logarithm `⌊log_b |q|⌋` of a nonzero rational `q` (junk at `0`): the unique
`d` with `b ^ d ≤ |q| < b ^ (d + 1)`.  The candidate from the floor
logarithms of numerator and denominator is off by at most one, so a
single comparison corrects it. -/
def qLogFloor (b : ℕ) (q : ℚ) : ℤ :=
  let d : ℤ := (natLogB b q.num.natAbs : ℤ) - (natLogB b q.den : ℤ)
  if qleB (qpow b d) (qabs q) then d else d - 1

/-- Round a rational to the nearest integer, ties to even.  `n` is the
floor (the denominator is positive, so `Int.ediv` is floor division)
and `r2` is twice the fractional part, scaled by the denominator. -/
def roundHalfEven (q : ℚ) : ℤ :=
  let n : ℤ := q.num.ediv q.den
  let r2 : ℤ := 2 * (q.num - n * q.den)
  if r2 < (q.den : ℤ) then n
  else if (q.den : ℤ) < r2 then n + 1
  else if n % 2 = 0 then n else n + 1

/-- Round `q` to `p` significant base-`b` digits, nearest, ties to even:
scale the significand into `[b ^ (p - 1), b ^ p)`, round it to an
integer, scale back. -/
def roundSig (b p : ℕ) (q : ℚ) : ℚ :=
  if q.num = 0 then 0
  else
    let e : ℤ := qLogFloor b q - ((p : ℤ) - 1)
    qmul ((roundHalfEven (qmul q (qpow b (-e))) : ℤ) : ℚ) (qpow b e)

/-- Correct rounding to IEEE-754 binary64 (normal range): 53 significant
bits, nearest, ties to even.  Models parsing a Python float literal,
converting a `Decimal` or `int` to `float`, and the rounding step of
float arithmetic. -/
def roundDouble (q : ℚ) : ℚ := roundSig 2 53 q

/-- Rounding applied by CPython `Decimal` arithmetic under the default
context: 28 significant decimal digits, ROUND_HALF_EVEN. -/
def decRound (q : ℚ) : ℚ := roundSig 10 28 q

/-- Python float multiplication: the exact product, correctly rounded. -/
def fmul (x y : ℚ) : ℚ := roundDouble (qmul x y)

/-- Python `Decimal` multiplication under the default context: the exact
product rounded to 28 significant digits. -/
def decMul (x y : ℚ) : ℚ := decRound (qmul x y)

/-- The integer written in the decimal literal assigned to `L`
(constants.py line 8); the trailing `.0` makes the Python token a float
literal, so `L` itself is this integer rounded to binary64. -/
def L_LIT : ℚ :=
  28948022309329048855892746252171976963363056481941560715954676764349967630337

/-- constants.py lines 3 and 9: `N_TERM = 2` (assigned twice). -/
def N_TERM : ℚ := 2

/-- constants.py line 4. -/
def CONTROLLER_TYPE_ANALOGUE : ℤ := -1

/-- constants.py line 5. -/
def CONTROLLER_TYPE_DISCRETE : ℤ := 0

/-- constants.py line 6. -/
def CONTROLLER_TYPE_TAKAHASHI : ℤ := 1

/-- constants.py line 8: `L = 2894…337.0`, the value of the float literal. -/
def L : ℚ := roundDouble L_LIT

/-- constants.py line 10: `REWARD = 1`. -/
def REWARD : ℚ := 1

/-- constants.py line 11: `BASE_L = L*0.01`, float multiplication of `L`
by the double nearest 1/100. -/
def BASE_L : ℚ := fmul L (roundDouble (mkRat 1 100))

/-- constants.py line 12: `F_MIN = 0.01`. -/
def F_MIN : ℚ := roundDouble (mkRat 1 100)

/-- constants.py line 13: `F_MAX = 0.99`. -/
def F_MAX : ℚ := roundDouble (mkRat 99 100)

/-- constants.py line 14: `EPSILON = 1`. -/
def EPSILON : ℚ := 1

/-- constants.py line 16: `L_HP = Num(2894…337.0)`.  The argument is the
float literal, so `L_HP` is the exact decimal value of the double `L`. -/
def L_HP : ℚ := roundDouble L_LIT

/-- constants.py line 17: `REWARD_HP = Num(1)`, exact. -/
def REWARD_HP : ℚ := 1

/-- constants.py line 18: `BASE_L_HP = L_HP*Num(0.01)`: `Decimal`
multiplication (context precision 28) of `L_HP` by the exact decimal
value of the double nearest 1/100. -/
def BASE_L_HP : ℚ := decMul L_HP (roundDouble (mkRat 1 100))

/-- constants.py line 19: `F_MIN_HP = Num(0.01)`, the exact decimal
value of the double nearest 1/100. -/
def F_MIN_HP : ℚ := roundDouble (mkRat 1 100)

/-- constants.py line 20: `F_MAX_HP = Num(0.99)`. -/
def F_MAX_HP : ℚ := roundDouble (mkRat 99 100)

/-- constants.py line 21: `EPSILON_HP = Num(1)`, exact. -/
def EPSILON_HP : ℚ := 1

/-- constants.py line 22: `ERC20DRK = 2.1*10**9`: the double nearest
21/10, multiplied (as floats) by the exactly representable 10⁹. -/
def ERC20DRK : ℚ := fmul (roundDouble (mkRat 21 10)) (mkRat (10 ^ 9) 1)

/-- Python module evaluation: the value a name holds after the module
body runs is the one from its textually last assignment. -/
def lastAssigned : List (String × ℚ) → String → Option ℚ
  | [], _ => none
  | (n, v) :: rest, x =>
    match lastAssigned rest x with
    | some w => some w
    | none => if n = x then some v else none

/-- The assignments of constants.py in source order, with the value each
right-hand side evaluates to. -/
def moduleAssigns : List (String × ℚ) :=
  [("N_TERM", 2),
   ("CONTROLLER_TYPE_ANALOGUE", (CONTROLLER_TYPE_ANALOGUE : ℚ)),
   ("CONTROLLER_TYPE_DISCRETE", (CONTROLLER_TYPE_DISCRETE : ℚ)),
   ("CONTROLLER_TYPE_TAKAHASHI", (CONTROLLER_TYPE_TAKAHASHI : ℚ)),
   ("L", L),
   ("N_TERM", 2),
   ("REWARD", REWARD),
   ("BASE_L", BASE_L),
   ("F_MIN", F_MIN),
   ("F_MAX", F_MAX),
   ("EPSILON", EPSILON),
   ("L_HP", L_HP),
   ("REWARD_HP", REWARD_HP),
   ("BASE_L_HP", BASE_L_HP),
   ("F_MIN_HP", F_MIN_HP),
   ("F_MAX_HP", F_MAX_HP),
   ("EPSILON_HP", EPSILON_HP),
   ("ERC20DRK", ERC20DRK)]

/-- A rational is the value of some finite IEEE-754 binary64 number only
if it is `m · 2 ^ e` with a 53-bit significand: `m.natAbs < 2 ^ 53` is
`|m| < 2 ^ 53`.  (Actual doubles also bound the exponent; dropping that
bound only enlarges the set, which strengthens non-membership facts.) -/
def isDouble53 (q : ℚ) : Prop :=
  ∃ m e : ℤ, m.natAbs < 2 ^ 53 ∧ q = (m : ℚ) * (2 : ℚ) ^ e

/-- The integer value of `BASE_L_HP`: the 28-digit coefficient produced
by context rounding, scaled by `10 ^ 47`. -/
def BASE_L_HP_NUM : ℕ := 2894802230932904945849451285 * 10 ^ 47

theorem qmul_eq (a b : ℚ) : qmul a b = a * b := by
  rw [qmul, Rat.mkRat_eq_div]
  push_cast
  rw [← div_mul_div_comm, Rat.num_div_den, Rat.num_div_den]

theorem qpow_eq (b : ℕ) (e : ℤ) : qpow b e = (b : ℚ) ^ e := by
  match e with
  | Int.ofNat k =>
    rw [qpow, Rat.mkRat_eq_div, Int.ofNat_eq_natCast, zpow_natCast]
    push_cast
    exact div_one _
  | Int.negSucc k =>
    rw [qpow, Rat.mkRat_eq_div, zpow_negSucc]
    push_cast
    rw [one_div]

theorem qabs_eq (a : ℚ) : qabs a = |a| := by
  conv_rhs => rw [← Rat.num_div_den a]
  rw [abs_div, abs_of_pos (show (0 : ℚ) < (a.den : ℚ) by exact_mod_cast a.den_pos),
    qabs, Rat.mkRat_eq_div]
  push_cast [Int.cast_natAbs]
  rfl

theorem qleB_iff (a b : ℚ) : qleB a b = true ↔ a ≤ b := by
  rw [qleB, decide_eq_true_iff]
  constructor
  all_goals intro h
  · rw [← Rat.num_div_den a, ← Rat.num_div_den b,
      div_le_div_iff₀ (by exact_mod_cast a.den_pos) (by exact_mod_cast b.den_pos)]
    exact_mod_cast h
  · rw [← Rat.num_div_den a, ← Rat.num_div_den b,
      div_le_div_iff₀ (by exact_mod_cast a.den_pos) (by exact_mod_cast b.den_pos)] at h
    exact_mod_cast h

/-- Package a concrete binary64 witness: the defining equation is
checked on the kernel-reducible primitives and transported to the field
operations of `ℚ`. -/
theorem isDouble53_of (q : ℚ) (m e : ℤ) (hm : m.natAbs < 2 ^ 53)
    (h : q = qmul ((m : ℤ) : ℚ) (qpow 2 e)) : isDouble53 q :=
  ⟨m, e, hm, by rw [h, qmul_eq, qpow_eq]; norm_num⟩

theorem base_l_hp_val : BASE_L_HP = ((BASE_L_HP_NUM : ℕ) : ℚ) := by decide

/-- The value `BASE_L_HP` is not `m · 2 ^ e` with a 53-bit significand, hence not
the value of any binary64 number: it is an odd multiple of `10 ^ 47`,
whose 2-adic valuation 47 is below the 195 that a double of its
magnitude (between `2 ^ 247` and `2 ^ 248`) would need. -/
theorem base_l_hp_not_double53 : ¬ isDouble53 BASE_L_HP := by
  rw [base_l_hp_val]
  rintro ⟨m, e, hm, heq⟩
  have hmZ : ((m.natAbs : ℤ)) < 2 ^ 53 := by exact_mod_cast hm
  rcases le_or_lt 0 e with he | he
  · lift e to ℕ using he with k
    rw [zpow_natCast] at heq
    have hz : (BASE_L_HP_NUM : ℤ) = m * 2 ^ k := by exact_mod_cast heq
    have hNbig : (2 : ℤ) ^ 247 < (BASE_L_HP_NUM : ℤ) := by
      exact_mod_cast (show 2 ^ 247 < BASE_L_HP_NUM by decide)
    have hk : 195 ≤ k := by
      by_contra hcon
      push_neg at hcon
      have h1 : (BASE_L_HP_NUM : ℤ) ≤ (m.natAbs : ℤ) * 2 ^ k :=
        hz ▸ mul_le_mul_of_nonneg_right (Int.le_natAbs) (by positivity)
      have h2 : ((m.natAbs : ℤ)) * 2 ^ k < 2 ^ 53 * 2 ^ k :=
        mul_lt_mul_of_pos_right hmZ (by positivity)
      have h3 : (2 : ℤ) ^ 53 * 2 ^ k ≤ 2 ^ 53 * 2 ^ 194 := by
        have : (2 : ℤ) ^ k ≤ 2 ^ 194 :=
          pow_le_pow_right₀ (by norm_num) (by omega)
        exact mul_le_mul_of_nonneg_left this (by positivity)
      have h4 : (2 : ℤ) ^ 53 * 2 ^ 194 = 2 ^ 247 := by rw [← pow_add]
      linarith
    obtain ⟨j, hj⟩ := Nat.exists_eq_add_of_le hk
    have hdvd : ((2 : ℤ) ^ 195) ∣ (BASE_L_HP_NUM : ℤ) := by
      refine ⟨m * 2 ^ j, ?_⟩
      rw [hz, hj, pow_add]
      ring
    have hdvdN : (2 ^ 195 : ℕ) ∣ BASE_L_HP_NUM := by exact_mod_cast hdvd
    obtain ⟨c, hc⟩ := hdvdN
    have hmod : BASE_L_HP_NUM % 2 ^ 195 = 0 := by
      rw [hc]
      exact Nat.mul_mod_right _ _
    exact absurd hmod (by decide)
  · have hk0 : (0 : ℤ) ≤ -e := by omega
    have hke : ((-e).toNat : ℤ) = -e := Int.toNat_of_nonneg hk0
    have hq : (BASE_L_HP_NUM : ℚ) * (2 : ℚ) ^ (-e) = (m : ℚ) := by
      rw [heq, mul_assoc, ← zpow_add₀ (by norm_num : (2 : ℚ) ≠ 0),
        add_neg_cancel, zpow_zero, mul_one]
    rw [← hke, zpow_natCast] at hq
    have hz2 : (BASE_L_HP_NUM : ℤ) * 2 ^ (-e).toNat = m := by exact_mod_cast hq
    have h0 : (0 : ℤ) < 2 ^ (-e).toNat := by positivity
    have h1 : (1 : ℤ) ≤ 2 ^ (-e).toNat := by omega
    have h2 : (BASE_L_HP_NUM : ℤ) ≤ (BASE_L_HP_NUM : ℤ) * 2 ^ (-e).toNat :=
      le_mul_of_one_le_right (by positivity) h1
    have hN53 : (2 : ℤ) ^ 53 < (BASE_L_HP_NUM : ℤ) := by
      exact_mod_cast (show 2 ^ 53 < BASE_L_HP_NUM by decide)
    have h3 : m ≤ (m.natAbs : ℤ) := Int.le_natAbs
    linarith

/-- C1: for every logical constant with both a float and a
high-precision form (`L`, `REWARD`, `BASE_L`, `F_MIN`, `F_MAX`,
`EPSILON`), converting the high-precision `Decimal` back to a float
(correct rounding to binary64) yields exactly the float form — so in
particular they agree within floating-point rounding tolerance. -/
theorem hp_forms_float_back_to_float_forms :
    roundDouble L_HP = L ∧ roundDouble REWARD_HP = REWARD ∧
    roundDouble BASE_L_HP = BASE_L ∧ roundDouble F_MIN_HP = F_MIN ∧
    roundDouble F_MAX_HP = F_MAX ∧ roundDouble EPSILON_HP = EPSILON := by
  decide

/-- C2: `BASE_L` is exactly the float product `L * 0.01` and
`BASE_L_HP` is exactly the `Decimal` product `L_HP * Num(0.01)`, each
under the arithmetic of its own representation; their concrete values are
`5764607523034235 · 2 ^ 195` (the float product rounds nothing away,
since `L = 2 ^ 254`) and the 28-significant-digit decimal
`2894802230932904945849451285 · 10 ^ 47`. -/
theorem base_l_products_under_each_arithmetic :
    BASE_L = fmul L (roundDouble (mkRat 1 100)) ∧
    BASE_L_HP = decMul L_HP (roundDouble (mkRat 1 100)) ∧
    BASE_L = mkRat (5764607523034235 * 2 ^ 195) 1 ∧
    BASE_L_HP = ((2894802230932904945849451285 * 10 ^ 47 : ℕ) : ℚ) :=
  ⟨rfl, rfl, by decide, by decide⟩

/-- C3: `ERC20DRK = 2.1 * 10**9` is exactly the integer 2100000000,
which is also exactly the value of the literal `2.1e9` (the nearest
double to 2100000000 is itself): the rounding residue of the inexact
binary 2.1 is wiped out by the final rounding. -/
theorem erc20drk_exact :
    ERC20DRK = (2100000000 : ℚ) ∧ ERC20DRK = roundDouble (2100000000 : ℚ) := by
  decide

/-- C4: `F_MIN < F_MAX` and both lie strictly inside the unit
interval. -/
theorem f_min_lt_f_max_in_unit_interval :
    (0 : ℚ) < F_MIN ∧ F_MIN < F_MAX ∧ F_MAX < 1 := by decide

/-- C5: the three controller-type tags are the pairwise distinct
integers −1, 0, 1. -/
theorem controller_tags_distinct :
    CONTROLLER_TYPE_ANALOGUE = -1 ∧ CONTROLLER_TYPE_DISCRETE = 0 ∧
    CONTROLLER_TYPE_TAKAHASHI = 1 ∧
    CONTROLLER_TYPE_ANALOGUE ≠ CONTROLLER_TYPE_DISCRETE ∧
    CONTROLLER_TYPE_ANALOGUE ≠ CONTROLLER_TYPE_TAKAHASHI ∧
    CONTROLLER_TYPE_DISCRETE ≠ CONTROLLER_TYPE_TAKAHASHI := by decide

/-- C6: the module body assigns `N_TERM` exactly twice, both times the
value 2, and after evaluation the name resolves to the last-assigned
value 2 (last-write-wins). -/
theorem n_term_assigned_twice_last_write_wins :
    (moduleAssigns.filter fun p => p.1 == "N_TERM").map Prod.snd = [2, 2] ∧
    lastAssigned moduleAssigns "N_TERM" = some N_TERM ∧ N_TERM = 2 := by
  decide

/-- C7: every exported constant has exactly the value given in the
interface listing of the spec: `L` is the double nearest the 78-digit literal,
namely `2 ^ 254`; `REWARD = 1`; `F_MIN` and `F_MAX` are the doubles
nearest 0.01 and 0.99; `EPSILON = 1`; `N_TERM = 2`; the controller tags
are −1, 0, 1; and `ERC20DRK = 2 100 000 000.0`. -/
theorem interface_listing_values :
    L = roundDouble L_LIT ∧ L = ((2 ^ 254 : ℕ) : ℚ) ∧ REWARD = 1 ∧
    F_MIN = mkRat 5764607523034235 (2 ^ 59) ∧
    F_MAX = mkRat 8917127262193582 (2 ^ 53) ∧
    EPSILON = 1 ∧ N_TERM = 2 ∧ CONTROLLER_TYPE_ANALOGUE = -1 ∧
    CONTROLLER_TYPE_DISCRETE = 0 ∧ CONTROLLER_TYPE_TAKAHASHI = 1 ∧
    ERC20DRK = (2100000000 : ℚ) :=
  ⟨rfl, by decide, rfl, by decide, by decide, rfl, rfl, rfl, rfl, rfl, by decide⟩

/-- C8 counterexample: `BASE_L_HP` is strictly greater than the exact
decimal product `L_HP · Num(0.01)`, so it is not "the exact decimal
product of two such Decimals" — the default-context multiplication
rounded the 134-digit exact product up to 28 significant digits. -/
theorem base_l_hp_exceeds_exact_product :
    qmul L_HP (roundDouble (mkRat 1 100)) < BASE_L_HP := by decide

/-- C8 amended: the float/high-precision round trip is exact with zero
error for every pair.  For the constants built by `Num(float)` (and
`Num(1)`) this is because they are exactly the decimal value of a
double; `BASE_L_HP`, however, is the exact product rounded to 28
significant digits by the default `Decimal` context — and even so its
correctly rounded double still equals the float product `BASE_L`. -/
theorem hp_round_trip_zero_error :
    roundDouble BASE_L_HP = BASE_L ∧
    BASE_L_HP = decRound (qmul L_HP (roundDouble (mkRat 1 100))) ∧
    roundDouble L_HP = L ∧ roundDouble REWARD_HP = REWARD ∧
    roundDouble F_MIN_HP = F_MIN ∧ roundDouble F_MAX_HP = F_MAX ∧
    roundDouble EPSILON_HP = EPSILON := by decide

/-- C9 counterexample: not every `_HP` constant is the exact decimal
expansion of a binary64 double — `BASE_L_HP` is not the value of any
double at all (it is an odd multiple of `10 ^ 47`, while a double of
its magnitude is a multiple of `2 ^ 195`). -/
theorem base_l_hp_is_no_double_value : isDouble53 BASE_L_HP ↔ False :=
  iff_false_intro base_l_hp_not_double53

/-- C9 amended: every `_HP` constant except `BASE_L_HP` is exactly the
value of a binary64 double (`L_HP`, `F_MIN_HP`, `F_MAX_HP` because
`Num(float)` converts the nearest double, not the decimal string;
`REWARD_HP` and `EPSILON_HP` because 1 is exact); `BASE_L_HP`, a
context-rounded product, is the value of no double; and in particular
`F_MIN_HP` differs from the exact decimal 0.01 and `F_MAX_HP` from 0.99. -/
theorem hp_values_versus_decimal_literals :
    isDouble53 L_HP ∧ isDouble53 REWARD_HP ∧ isDouble53 F_MIN_HP ∧
    isDouble53 F_MAX_HP ∧ isDouble53 EPSILON_HP ∧
    (isDouble53 BASE_L_HP ↔ False) ∧
    F_MIN_HP ≠ mkRat 1 100 ∧ F_MAX_HP ≠ mkRat 99 100 := by
  refine ⟨isDouble53_of _ (2 ^ 52) 202 (by decide) (by decide),
    isDouble53_of _ 1 0 (by decide) (by decide),
    isDouble53_of _ 5764607523034235 (-59) (by decide) (by decide),
    isDouble53_of _ 8917127262193582 (-53) (by decide) (by decide),
    isDouble53_of _ 1 0 (by decide) (by decide),
    iff_false_intro base_l_hp_not_double53, by decide, by decide⟩

/-- C10: the float `L` differs from the 78-digit integer of its literal
(which is `2 ^ 254` plus a 126-bit remainder, far beyond 53 bits of
significand — `L` is exactly `2 ^ 254`), while `L_HP = Num(L)` equals
that nearest double exactly, hence also differs from the written
integer. -/
theorem l_literal_not_representable :
    L ≠ L_LIT ∧ L_HP = roundDouble L_LIT ∧ L_HP = L ∧ L_HP ≠ L_LIT ∧
    L = ((2 ^ 254 : ℕ) : ℚ) ∧
    L_LIT = ((2 ^ 254 + 45560315531419706090280762371685220353 : ℕ) : ℚ) :=
  ⟨by decide, rfl, rfl, by decide, by decide, by decide⟩

end LotterySim
